import Mathlib

/-!
Verification of the niri-output-scaler program.

The program is a small CLI tool around one decision function,
find_next_scale, plus a compositor-state model (NiriState) and an
orchestration function (main).  Scales are floating-point numbers in the
source; the program only compares them (no arithmetic), so they are
embedded as rationals.  Python truthiness matters in three places of the
source and is embedded faithfully: the value 0.0 is falsy in the
expression that picks the wrap value and in the check on the final
next_scale; None and the empty string are falsy in the focused-output
accessor.
-/

/-- Python `x or y` on an optional float x and a float y: yields y when x is
None or 0.0, otherwise the value of x.  Embeds the source line
`target_scale_value = target_scale_value or target_scales[0]`. -/
def pyOr (v : Option ℚ) (d : ℚ) : ℚ :=
  match v with
  | none => d
  | some x => if x = 0 then d else x

/-- Embedding of find_next_scale from src/niri_output_scaler/__main__.py.
The for-loop with break is List.find?; `reversed(target_scales)` is
List.reverse; `target_scales[0]` and `target_scales[-1]` are headD and
getLastD (only reached when the list is non-empty, as in the source);
the `case _` branch raises ValueError, embedded as Except.error. -/
def find_next_scale (current_scale : ℚ) (target_scales : List ℚ)
    (direction : String) : Except String (Option ℚ) :=
  if target_scales.isEmpty then
    Except.ok none
  else
    match direction with
    | "forwards" =>
        Except.ok (some (pyOr
          (target_scales.find? (fun s => decide (current_scale < s)))
          (target_scales.headD 0)))
    | "backwards" =>
        Except.ok (some (pyOr
          (target_scales.reverse.find? (fun s => decide (s < current_scale)))
          (target_scales.getLastD 0)))
    | _ => Except.error ("Invalid Direction " ++ direction)

/-- The forwards rule as the spec words it: the first value of targets
strictly greater than current, and targets[0] when none is greater. -/
def spec_next_forwards (current : ℚ) (targets : List ℚ) : Option ℚ :=
  match targets.find? (fun s => decide (current < s)) with
  | some v => some v
  | none => targets.head?

/-- The backwards rule as the spec words it: scanning targets in descending
order, the first value strictly less than current, and targets[-1] when
none is smaller. -/
def spec_next_backwards (current : ℚ) (targets : List ℚ) : Option ℚ :=
  match targets.reverse.find? (fun s => decide (s < current)) with
  | some v => some v
  | none => targets.getLast?

/-- Embedding of WorkspaceEntryDict.  NotRequired fields are Option. -/
structure WorkspaceEntry where
  id : Int
  idx : Int
  name : Option String
  output : Option String
  is_active : Bool
  is_focused : Bool
  active_window_id : Int
deriving DecidableEq, Repr

/-- Embedding of OutputLogicalEntryDict. -/
structure OutputLogicalEntry where
  x : Int
  y : Int
  width : Int
  height : Int
  scale : ℚ
  transform : String
deriving DecidableEq, Repr

/-- Embedding of OutputEntryDict.  The entries of `modes` are opaque JSON
mappings never inspected by the program; they are embedded as association
lists of strings. -/
structure OutputEntry where
  name : String
  make : String
  model : String
  serial : String
  physical_size : Int × Int
  modes : List (List (String × String))
  current_mode : Int
  vrr_supported : Bool
  vrr_enabled : Bool
  logical : OutputLogicalEntry
deriving DecidableEq, Repr

/-- Embedding of the NiriState dataclass: the workspace list and the
output mapping (a JSON object, embedded as an association list keyed by
output name). -/
structure NiriState where
  workspaces : List WorkspaceEntry
  outputs : List (String × OutputEntry)
deriving DecidableEq, Repr

/-- Python dict lookup `d.get(k)` / `d[k]` on the output mapping. -/
def lookupOutput (outputs : List (String × OutputEntry)) (nm : String) :
    Option OutputEntry :=
  (outputs.find? (fun p => decide (p.1 = nm))).map (fun p => p.2)

/-- Embedding of NiriState.focused_workspace: the first workspace with
is_focused set, None when there is none. -/
def NiriState.focused_workspace (st : NiriState) : Option WorkspaceEntry :=
  st.workspaces.find? (fun w => w.is_focused)

/-- Embedding of NiriState.focused_output.  The source guard is
`if (focused := self.focused_workspace) and (output_name := focused.get("output"))`:
a workspace dict is truthy (it always has required keys), and the output
name is truthy when present and non-empty; otherwise the method falls
through and returns None.  On the truthy path it returns
`self.outputs.get(output_name)`. -/
def NiriState.focused_output (st : NiriState) : Option OutputEntry :=
  match st.focused_workspace with
  | none => none
  | some focused =>
    match focused.output with
    | none => none
    | some output_name =>
      if output_name = "" then none else lookupOutput st.outputs output_name

/-- The two user-facing resolution failures of main, each reported on
stderr followed by sys.exit(1). -/
inductive ResolveError where
  | noFocusedOutput
  | unknownOutput (nm : String)
deriving DecidableEq, Repr

/-- Embedding of the output-resolution branch of main: the sentinel
`@current` takes the focused output and fails with "No focused output!"
when there is none; any other argument is looked up literally in the
output mapping and fails with "Could not find an output named ..."
when absent. -/
def resolve_output (st : NiriState) (output_arg : String) :
    Except ResolveError OutputEntry :=
  if output_arg = "@current" then
    match st.focused_output with
    | some o => Except.ok o
    | none => Except.error ResolveError.noFocusedOutput
  else
    match lookupOutput st.outputs output_arg with
    | some o => Except.ok o
    | none => Except.error (ResolveError.unknownOutput output_arg)

/-- Python exceptions that main can let escape as a traceback. -/
inductive PyError where
  | typeError (msg : String)
  | valueError (msg : String)
deriving DecidableEq, Repr

/-- The observable outcome of one run of main, up to the final external
write command: an explicit sys.exit with a status and a stderr message, an
unhandled Python exception (traceback, non-zero status), the decision to
scale a named output to a value, or the "Did not find a next scale WAT"
message. -/
inductive MainResult where
  | exited (status : Nat) (stderrMsg : String)
  | pyError (e : PyError)
  | scaling (output_name : String) (scale : ℚ)
  | noNextScaleMsg
deriving DecidableEq, Repr

/-- Modelled from the spec: the argument-parsing collaborator (Python
argparse, outside this repository, which contains only the add_argument
call).  With `action="append"` and no default, `args.scale` is None when
the flag never occurs, and otherwise the list of occurrences in order. -/
def parseScaleFlags (flags : List ℚ) : Option (List ℚ) :=
  match flags with
  | [] => none
  | xs => some xs

/-- Python `sorted(x)` where x is a list of floats or None: sorting None
raises TypeError; a list is sorted ascending. -/
def pySortedScales (scales : Option (List ℚ)) : Except PyError (List ℚ) :=
  match scales with
  | none => Except.error (PyError.typeError "NoneType object is not iterable")
  | some xs => Except.ok (xs.mergeSort (fun a b => decide (a ≤ b)))

/-- Embedding of main after argument parsing and the NiriState query, in
source order: resolve the target output (exit 1 on failure), read its
name and current logical scale, sort the scale arguments (a TypeError
escapes when the flag was never given), call find_next_scale (a
ValueError escapes on a bad direction), then branch on the truthiness of
the result: a non-None non-zero scale is applied, anything else prints
the WAT message. -/
def mainModel (st : NiriState) (scaleArgs : Option (List ℚ))
    (output_arg : String) (direction : String) : MainResult :=
  match resolve_output st output_arg with
  | Except.error ResolveError.noFocusedOutput =>
      MainResult.exited 1 "No focused output!"
  | Except.error (ResolveError.unknownOutput nm) =>
      MainResult.exited 1 ("Could not find an output named " ++ nm)
  | Except.ok target_output =>
    let output_name := target_output.name
    let current_scale := target_output.logical.scale
    match pySortedScales scaleArgs with
    | Except.error e => MainResult.pyError e
    | Except.ok target_scales =>
      match find_next_scale current_scale target_scales direction with
      | Except.error msg => MainResult.pyError (PyError.valueError msg)
      | Except.ok next_scale =>
        match next_scale with
        | some v =>
            if v = 0 then MainResult.noNextScaleMsg
            else MainResult.scaling output_name v
        | none => MainResult.noNextScaleMsg

/-- A concrete state with a single unfocused workspace and no outputs. -/
def stNoFocus : NiriState := ⟨[⟨1, 0, none, none, false, false, 0⟩], []⟩

/-- A concrete output record named eDP-1 at logical scale 2. -/
def outEDP : OutputEntry :=
  ⟨"eDP-1", "MK", "MD", "SN", (300, 200), [], 0, false, false,
    ⟨0, 0, 1920, 1080, 2, "normal"⟩⟩

/-- A concrete state with no workspaces and one output named eDP-1. -/
def stWithOutput : NiriState := ⟨[], [("eDP-1", outEDP)]⟩

-- Concrete cases from the spec, checked against the embedding

example : find_next_scale 1 [1, 3/2, 2] "forwards" = Except.ok (some (3/2)) := by
  norm_num [find_next_scale, pyOr, List.find?]
example : find_next_scale 2 [1, 3/2, 2] "forwards" = Except.ok (some 1) := by
  norm_num [find_next_scale, pyOr, List.find?]
example : find_next_scale (3/2) [1, 3/2, 2] "backwards" = Except.ok (some 1) := by
  norm_num [find_next_scale, pyOr, List.find?]
example : find_next_scale 1 [1, 3/2, 2] "backwards" = Except.ok (some 2) := by
  norm_num [find_next_scale, pyOr, List.find?]
-- the Python-or artifact: a found 0.0 is replaced by the wrap value
example : find_next_scale (-1) [-2, 0, 1] "forwards" = Except.ok (some (-2)) := rfl
example : spec_next_forwards (-1) [-2, 0, 1] = some 0 := by decide
example : find_next_scale 1 [0, 2] "backwards" = Except.ok (some 2) := rfl
example : spec_next_backwards 1 [0, 2] = some 0 := by decide
example : find_next_scale 1 [1] "forwards" = Except.ok (some 1) := rfl
example : find_next_scale 1 [] "sideways" = Except.ok none := rfl

/-! ### Helper lemmas -/

/-- pyOr lands in a list when both its candidate value and its default do. -/
lemma pyOr_mem (f : Option ℚ) (d : ℚ) (l : List ℚ) (hd : d ∈ l)
    (hf : ∀ x, f = some x → x ∈ l) : pyOr f d ∈ l := by
  cases f with
  | none => exact hd
  | some x =>
    by_cases hx : x = 0
    · simpa [pyOr, hx] using hd
    · simpa [pyOr, hx] using hf x rfl

lemma headD_mem_of_ne_nil (l : List ℚ) (h : l ≠ []) : l.headD 0 ∈ l := by
  cases l with
  | nil => exact absurd rfl h
  | cons a t => simp

lemma getLastD_eq_headD_reverse (l : List ℚ) : l.getLastD 0 = l.reverse.headD 0 := by
  simp [List.getLastD_eq_getLast?, List.headD_eq_head?_getD]

lemma getLastD_mem_of_ne_nil (l : List ℚ) (h : l ≠ []) : l.getLastD 0 ∈ l := by
  rw [getLastD_eq_headD_reverse]
  have hne : l.reverse ≠ [] := by simpa using h
  simpa using headD_mem_of_ne_nil l.reverse hne

lemma getLast?_eq_some_getLastD (l : List ℚ) (h : l ≠ []) :
    l.getLast? = some (l.getLastD 0) := by
  cases hg : l.getLast? with
  | none => exact absurd (List.getLast?_eq_none_iff.mp hg) h
  | some x => simp [List.getLastD_eq_getLast?, hg]

/-- The head of a pairwise list is related to every member, given reflexivity. -/
lemma headD_rel_of_pairwise (r : ℚ → ℚ → Prop) (hrefl : ∀ x, r x x)
    (l : List ℚ) (hp : l.Pairwise r) : ∀ x ∈ l, r (l.headD 0) x := by
  cases l with
  | nil => intro x hx; simp at hx
  | cons a t =>
    intro x hx
    rw [List.pairwise_cons] at hp
    rcases List.mem_cons.mp hx with rfl | hx'
    · simpa using hrefl x
    · simpa using hp.1 x hx'

/-- In an ascending-sorted list the head is a lower bound. -/
lemma sorted_headD_le (l : List ℚ) (hs : l.Sorted (· ≤ ·)) :
    ∀ x ∈ l, l.headD 0 ≤ x :=
  headD_rel_of_pairwise (· ≤ ·) le_refl l hs

/-- In an ascending-sorted list the last element is an upper bound. -/
lemma sorted_le_getLastD (l : List ℚ) (hs : l.Sorted (· ≤ ·)) :
    ∀ x ∈ l, x ≤ l.getLastD 0 := by
  intro x hx
  have hrev : l.reverse.Pairwise (fun a b => b ≤ a) :=
    List.pairwise_reverse.mpr hs
  have := headD_rel_of_pairwise (fun a b => b ≤ a) (fun y => le_refl y)
    l.reverse hrev x (List.mem_reverse.mpr hx)
  rwa [getLastD_eq_headD_reverse]

/-- Reduction of find_next_scale on a non-empty list, forwards. -/
lemma find_next_scale_forwards_cons (current a : ℚ) (t : List ℚ) :
    find_next_scale current (a :: t) "forwards" =
      Except.ok (some (pyOr
        ((a :: t).find? (fun s => decide (current < s))) a)) := rfl

/-- Reduction of find_next_scale on a non-empty list, backwards. -/
lemma find_next_scale_backwards_cons (current a : ℚ) (t : List ℚ) :
    find_next_scale current (a :: t) "backwards" =
      Except.ok (some (pyOr
        ((a :: t).reverse.find? (fun s => decide (s < current)))
        ((a :: t).getLastD 0))) := rfl

/-! ### Claims C1 and C2: the two scan directions against the spec wording -/

/-- Claim C1 counterexample: on the ascending-sorted list [-2, 0, 1] with
current scale -1 and direction forwards, the first element strictly
greater than current is 0, but find_next_scale returns -2 (the Python
`or` treats the found value 0.0 as falsy and substitutes targets[0]). -/
theorem C1_counterexample :
    find_next_scale (-1) [-2, 0, 1] "forwards" = Except.ok (some (-2)) ∧
    spec_next_forwards (-1) [-2, 0, 1] = some 0 ∧ ((-2 : ℚ)) ≠ 0 :=
  ⟨rfl, by decide, by norm_num⟩

/-- Claim C1 (amended): for every non-empty ascending-sorted list of targets
in which no element equals 0, and every current scale, find_next_scale with
direction forwards returns the first element of targets strictly greater
than current, and targets[0] when no element is strictly greater. -/
theorem C1_forwards_matches_spec (current : ℚ) (targets : List ℚ)
    (hne : targets ≠ []) (hsort : targets.Sorted (· ≤ ·))
    (hz : (0 : ℚ) ∉ targets) :
    find_next_scale current targets "forwards" =
      Except.ok (spec_next_forwards current targets) := by
  cases targets with
  | nil => exact absurd rfl hne
  | cons a t =>
    rw [find_next_scale_forwards_cons]
    unfold spec_next_forwards
    cases hf : (a :: t).find? (fun s => decide (current < s)) with
    | none => simp [pyOr]
    | some v =>
      have hv0 : v ≠ 0 := by
        intro h
        rw [h] at hf
        exact hz (List.mem_of_find?_eq_some hf)
      simp [pyOr, hv0]

/-- Claim C1 witness at current = 1, targets = [1, 2, 4]. -/
theorem C1_forwards_matches_spec_witness :
    (([1, 2, 4] : List ℚ) ≠ [] ∧ ([1, 2, 4] : List ℚ).Sorted (· ≤ ·) ∧
      (0 : ℚ) ∉ ([1, 2, 4] : List ℚ)) ∧
    find_next_scale 1 [1, 2, 4] "forwards" =
      Except.ok (spec_next_forwards 1 [1, 2, 4]) :=
  ⟨⟨by decide, by decide, by decide⟩,
    C1_forwards_matches_spec 1 [1, 2, 4] (by decide) (by decide) (by decide)⟩

/-- Claim C2 counterexample: on the ascending-sorted list [0, 2] with
current scale 1 and direction backwards, the first element in descending
order strictly less than current is 0, but find_next_scale returns 2 (the
Python `or` treats the found value 0.0 as falsy and substitutes
targets[-1]). -/
theorem C2_counterexample :
    find_next_scale 1 [0, 2] "backwards" = Except.ok (some 2) ∧
    spec_next_backwards 1 [0, 2] = some 0 ∧ ((2 : ℚ)) ≠ 0 :=
  ⟨rfl, by decide, by norm_num⟩

/-- Claim C2 (amended): for every non-empty ascending-sorted list of targets
in which no element equals 0, and every current scale, find_next_scale with
direction backwards returns the first element of targets, scanning in
descending order, strictly less than current, and targets[-1] when no
element is strictly less. -/
theorem C2_backwards_matches_spec (current : ℚ) (targets : List ℚ)
    (hne : targets ≠ []) (hsort : targets.Sorted (· ≤ ·))
    (hz : (0 : ℚ) ∉ targets) :
    find_next_scale current targets "backwards" =
      Except.ok (spec_next_backwards current targets) := by
  cases targets with
  | nil => exact absurd rfl hne
  | cons a t =>
    rw [find_next_scale_backwards_cons]
    unfold spec_next_backwards
    cases hf : (a :: t).reverse.find? (fun s => decide (s < current)) with
    | none =>
      rw [getLast?_eq_some_getLastD (a :: t) (by simp)]
      simp [pyOr]
    | some v =>
      have hv0 : v ≠ 0 := by
        intro h
        rw [h] at hf
        exact hz (List.mem_reverse.mp (List.mem_of_find?_eq_some hf))
      simp [pyOr, hv0]

/-- Claim C2 witness at current = 3, targets = [1, 2, 4]. -/
theorem C2_backwards_matches_spec_witness :
    (([1, 2, 4] : List ℚ) ≠ [] ∧ ([1, 2, 4] : List ℚ).Sorted (· ≤ ·) ∧
      (0 : ℚ) ∉ ([1, 2, 4] : List ℚ)) ∧
    find_next_scale 3 [1, 2, 4] "backwards" =
      Except.ok (spec_next_backwards 3 [1, 2, 4]) :=
  ⟨⟨by decide, by decide, by decide⟩,
    C2_backwards_matches_spec 3 [1, 2, 4] (by decide) (by decide) (by decide)⟩

/-! ### Claim C3: the result is always drawn from the target list -/

/-- Claim C3: for every ascending-sorted target list, every current scale
and both directions, whenever find_next_scale returns a value, that value
is an element of the target list. -/
theorem C3_result_mem_targets (current : ℚ) (targets : List ℚ)
    (direction : String) (hsort : targets.Sorted (· ≤ ·))
    (hdir : direction = "forwards" ∨ direction = "backwards")
    (v : ℚ) (h : find_next_scale current targets direction = Except.ok (some v)) :
    v ∈ targets := by
  cases targets with
  | nil =>
    rcases hdir with rfl | rfl <;> simp [find_next_scale] at h
  | cons a t =>
    rcases hdir with rfl | rfl
    · rw [find_next_scale_forwards_cons] at h
      have hv : pyOr ((a :: t).find? (fun s => decide (current < s))) a = v := by
        simpa using h
      rw [← hv]
      exact pyOr_mem _ a (a :: t) (by simp)
        (fun x hx => List.mem_of_find?_eq_some hx)
    · rw [find_next_scale_backwards_cons] at h
      have hv : pyOr ((a :: t).reverse.find? (fun s => decide (s < current)))
          ((a :: t).getLastD 0) = v := by
        simpa using h
      rw [← hv]
      exact pyOr_mem _ _ (a :: t) (getLastD_mem_of_ne_nil (a :: t) (by simp))
        (fun x hx => List.mem_reverse.mp (List.mem_of_find?_eq_some hx))

/-- Claim C3 witness at current = 1, targets = [1, 2], forwards. -/
theorem C3_result_mem_targets_witness :
    (([1, 2] : List ℚ).Sorted (· ≤ ·) ∧
      find_next_scale 1 [1, 2] "forwards" = Except.ok (some 2)) ∧
    (2 : ℚ) ∈ ([1, 2] : List ℚ) :=
  ⟨⟨by decide, rfl⟩,
    C3_result_mem_targets 1 [1, 2] "forwards" (by decide) (Or.inl rfl) 2 rfl⟩

/-! ### Claims C4 and C9: the result moves away from the current scale -/

/-- On an ascending-sorted list of strictly positive scales with at least
two distinct values, find_next_scale in either valid direction produces a
value different from the current scale. -/
lemma result_ne_current_aux (current : ℚ) (targets : List ℚ)
    (hsort : targets.Sorted (· ≤ ·)) (hpos : ∀ s ∈ targets, 0 < s)
    (hdist : ∃ a ∈ targets, ∃ b ∈ targets, a ≠ b)
    (direction : String)
    (hdir : direction = "forwards" ∨ direction = "backwards") :
    ∃ v, find_next_scale current targets direction = Except.ok (some v) ∧
      v ≠ current := by
  obtain ⟨a0, ha0, b0, hb0, hab⟩ := hdist
  cases targets with
  | nil => simp at ha0
  | cons a t =>
    rcases hdir with rfl | rfl
    · cases hf : (a :: t).find? (fun s => decide (current < s)) with
      | some x =>
        have hx : x ∈ a :: t := List.mem_of_find?_eq_some hf
        have hxc : current < x := by simpa using List.find?_some hf
        have hx0 : x ≠ 0 := ne_of_gt (hpos x hx)
        refine ⟨x, ?_, ne_of_gt hxc⟩
        rw [find_next_scale_forwards_cons, hf]
        simp [pyOr, hx0]
      | none =>
        have hall : ∀ s ∈ (a :: t), s ≤ current := by
          intro s hs
          by_contra hlt
          exact (List.find?_eq_none.mp hf s hs) (decide_eq_true (lt_of_not_le hlt))
        refine ⟨a, ?_, ?_⟩
        · rw [find_next_scale_forwards_cons, hf]
          simp [pyOr]
        · intro hac
          have hha := sorted_headD_le (a :: t) hsort
          have h1 : a0 = a :=
            le_antisymm (hac ▸ hall a0 ha0) (by simpa using hha a0 ha0)
          have h2 : b0 = a :=
            le_antisymm (hac ▸ hall b0 hb0) (by simpa using hha b0 hb0)
          exact hab (h1.trans h2.symm)
    · cases hf : (a :: t).reverse.find? (fun s => decide (s < current)) with
      | some x =>
        have hx : x ∈ a :: t := List.mem_reverse.mp (List.mem_of_find?_eq_some hf)
        have hxc : x < current := by simpa using List.find?_some hf
        have hx0 : x ≠ 0 := ne_of_gt (hpos x hx)
        refine ⟨x, ?_, ne_of_lt hxc⟩
        rw [find_next_scale_backwards_cons, hf]
        simp [pyOr, hx0]
      | none =>
        have hall : ∀ s ∈ (a :: t), current ≤ s := by
          intro s hs
          by_contra hlt
          exact (List.find?_eq_none.mp hf s (List.mem_reverse.mpr hs))
            (decide_eq_true (lt_of_not_le hlt))
        refine ⟨(a :: t).getLastD 0, ?_, ?_⟩
        · rw [find_next_scale_backwards_cons, hf]
          simp [pyOr]
        · intro hac
          have hla := sorted_le_getLastD (a :: t) hsort
          have h1 : a0 = (a :: t).getLastD 0 :=
            le_antisymm (hla a0 ha0) (hac ▸ hall a0 ha0)
          have h2 : b0 = (a :: t).getLastD 0 :=
            le_antisymm (hla b0 hb0) (hac ▸ hall b0 hb0)
          exact hab (h1.trans h2.symm)

/-- Claim C4 counterexample: on the singleton ascending-sorted list [1]
with current scale 1 (which equals an element) and direction forwards,
find_next_scale wraps and returns that very element 1. -/
theorem C4_counterexample :
    (1 : ℚ) ∈ ([1] : List ℚ) ∧
    find_next_scale 1 [1] "forwards" = Except.ok (some 1) :=
  ⟨by decide, rfl⟩

/-- Claim C4 (amended): for every ascending-sorted list of strictly
positive targets with at least two distinct values, and both valid
directions, if the current scale equals an element of targets then
find_next_scale never returns that element: the returned value differs
from the current scale. -/
theorem C4_never_returns_equal (current : ℚ) (targets : List ℚ)
    (hsort : targets.Sorted (· ≤ ·)) (hpos : ∀ s ∈ targets, 0 < s)
    (hdist : ∃ a ∈ targets, ∃ b ∈ targets, a ≠ b)
    (hcur : current ∈ targets) (direction : String)
    (hdir : direction = "forwards" ∨ direction = "backwards") :
    ∃ v, find_next_scale current targets direction = Except.ok (some v) ∧
      v ≠ current :=
  result_ne_current_aux current targets hsort hpos hdist direction hdir

/-- Claim C4 witness at current = 1, targets = [1, 2], backwards. -/
theorem C4_never_returns_equal_witness :
    (([1, 2] : List ℚ).Sorted (· ≤ ·) ∧ (∀ s ∈ ([1, 2] : List ℚ), 0 < s) ∧
      (∃ a ∈ ([1, 2] : List ℚ), ∃ b ∈ ([1, 2] : List ℚ), a ≠ b) ∧
      (1 : ℚ) ∈ ([1, 2] : List ℚ)) ∧
    (∃ v, find_next_scale 1 [1, 2] "backwards" = Except.ok (some v) ∧ v ≠ 1) :=
  ⟨⟨by decide, by decide, ⟨1, by decide, 2, by decide, by norm_num⟩, by decide⟩,
    C4_never_returns_equal 1 [1, 2] (by decide) (by decide)
      ⟨1, by decide, 2, by decide, by norm_num⟩ (by decide) "backwards"
      (Or.inr rfl)⟩

/-- Claim C9: for every ascending-sorted list of strictly positive targets
with at least two distinct values, every current scale and both valid
directions, the value returned by find_next_scale differs from the current
scale. -/
theorem C9_result_ne_current (current : ℚ) (targets : List ℚ)
    (hsort : targets.Sorted (· ≤ ·)) (hpos : ∀ s ∈ targets, 0 < s)
    (hdist : ∃ a ∈ targets, ∃ b ∈ targets, a ≠ b)
    (direction : String)
    (hdir : direction = "forwards" ∨ direction = "backwards") :
    ∃ v, find_next_scale current targets direction = Except.ok (some v) ∧
      v ≠ current :=
  result_ne_current_aux current targets hsort hpos hdist direction hdir

/-- Claim C9 witness at current = 3, targets = [1, 2], forwards (wraps). -/
theorem C9_result_ne_current_witness :
    (([1, 2] : List ℚ).Sorted (· ≤ ·) ∧ (∀ s ∈ ([1, 2] : List ℚ), 0 < s) ∧
      (∃ a ∈ ([1, 2] : List ℚ), ∃ b ∈ ([1, 2] : List ℚ), a ≠ b)) ∧
    (∃ v, find_next_scale 3 [1, 2] "forwards" = Except.ok (some v) ∧ v ≠ 3) :=
  ⟨⟨by decide, by decide, ⟨1, by decide, 2, by decide, by norm_num⟩⟩,
    C9_result_ne_current 3 [1, 2] (by decide) (by decide)
      ⟨1, by decide, 2, by decide, by norm_num⟩ "forwards" (Or.inl rfl)⟩

/-! ### Claim C5: wraparound at the ends -/

/-- Claim C5: for every non-empty ascending-sorted target list, if the
current scale is at or beyond the maximum then forwards wraps to the
minimum (the head, which is a lower bound of the list), and if the current
scale is at or below the minimum then backwards wraps to the maximum (the
last element, which is an upper bound of the list). -/
theorem C5_wraparound (current : ℚ) (targets : List ℚ)
    (hne : targets ≠ []) (hsort : targets.Sorted (· ≤ ·)) :
    ((∀ s ∈ targets, s ≤ current) →
      find_next_scale current targets "forwards" =
        Except.ok (some (targets.headD 0)) ∧
      ∀ s ∈ targets, targets.headD 0 ≤ s) ∧
    ((∀ s ∈ targets, current ≤ s) →
      find_next_scale current targets "backwards" =
        Except.ok (some (targets.getLastD 0)) ∧
      ∀ s ∈ targets, s ≤ targets.getLastD 0) := by
  cases targets with
  | nil => exact absurd rfl hne
  | cons a t =>
    constructor
    · intro hmax
      have hf : (a :: t).find? (fun s => decide (current < s)) = none := by
        rw [List.find?_eq_none]
        intro x hx
        simpa using not_lt.mpr (hmax x hx)
      refine ⟨?_, sorted_headD_le (a :: t) hsort⟩
      rw [find_next_scale_forwards_cons, hf]
      simp [pyOr]
    · intro hmin
      have hf : (a :: t).reverse.find? (fun s => decide (s < current)) = none := by
        rw [List.find?_eq_none]
        intro x hx
        simpa using not_lt.mpr (hmin x (List.mem_reverse.mp hx))
      refine ⟨?_, sorted_le_getLastD (a :: t) hsort⟩
      rw [find_next_scale_backwards_cons, hf]
      simp [pyOr]

/-- Claim C5 witness: forwards from 5 on [1, 2] wraps to 1, backwards from
0 on [1, 2] wraps to 2. -/
theorem C5_wraparound_witness :
    (([1, 2] : List ℚ) ≠ [] ∧ ([1, 2] : List ℚ).Sorted (· ≤ ·) ∧
      (∀ s ∈ ([1, 2] : List ℚ), s ≤ 5) ∧ (∀ s ∈ ([1, 2] : List ℚ), 0 ≤ s)) ∧
    find_next_scale 5 [1, 2] "forwards" = Except.ok (some 1) ∧
    find_next_scale 0 [1, 2] "backwards" = Except.ok (some 2) := by
  refine ⟨⟨by decide, by decide, by decide, by decide⟩, ?_, ?_⟩
  · exact ((C5_wraparound 5 [1, 2] (by decide) (by decide)).1 (by decide)).1
  · exact ((C5_wraparound 0 [1, 2] (by decide) (by decide)).2 (by decide)).1

/-! ### Claim C6: invalid direction values -/

/-- Claim C6 counterexample: with an empty target list, an invalid direction
value does not raise at all; find_next_scale returns None because the
emptiness check precedes the direction match. -/
theorem C6_counterexample :
    find_next_scale 1 [] "sideways" = Except.ok none := rfl

/-- Claim C6 (amended): for every non-empty list of targets and every
current scale, a direction value other than forwards and backwards makes
find_next_scale raise ValueError (the InvalidArgument condition) instead
of silently producing a result. -/
theorem C6_invalid_direction_raises (current : ℚ) (targets : List ℚ)
    (direction : String) (hne : targets ≠ [])
    (h1 : direction ≠ "forwards") (h2 : direction ≠ "backwards") :
    find_next_scale current targets direction =
      Except.error ("Invalid Direction " ++ direction) := by
  cases targets with
  | nil => exact absurd rfl hne
  | cons a t =>
    unfold find_next_scale
    simp only [List.isEmpty_cons, Bool.false_eq_true, if_false]

/-- Claim C6 witness at targets = [1], direction "sideways". -/
theorem C6_invalid_direction_raises_witness :
    (([1] : List ℚ) ≠ [] ∧ "sideways" ≠ "forwards" ∧
      "sideways" ≠ "backwards") ∧
    find_next_scale 1 [1] "sideways" =
      Except.error ("Invalid Direction " ++ "sideways") :=
  ⟨⟨by decide, by decide, by decide⟩,
    C6_invalid_direction_raises 1 [1] "sideways" (by decide) (by decide)
      (by decide)⟩

/-! ### Claim C7: empty target list -/

/-- Claim C7: for every current scale and both valid directions,
find_next_scale on an empty target list returns None (the no-op signal)
rather than an error. -/
theorem C7_empty_targets_none (current : ℚ) :
    find_next_scale current [] "forwards" = Except.ok none ∧
    find_next_scale current [] "backwards" = Except.ok none :=
  ⟨rfl, rfl⟩

/-! ### Claim C8: sentinel resolution with no usable focused output -/

/-- Claim C8: for every compositor state satisfying the at-most-one-focused
invariant in which no workspace is focused, or the focused workspace has no
output name, or its output name is not a key of the output mapping, the
focused_output accessor yields None, sentinel resolution fails with the
NoFocusedOutput condition, and main exits with status 1 and the
"No focused output!" message. -/
theorem C8_no_focused_output (st : NiriState)
    (hinv : ∀ w1 ∈ st.workspaces, ∀ w2 ∈ st.workspaces,
      w1.is_focused = true → w2.is_focused = true → w1 = w2)
    (h : (∀ w ∈ st.workspaces, w.is_focused = false) ∨
      (∃ w ∈ st.workspaces, w.is_focused = true ∧
        (w.output = none ∨
          ∀ nm, w.output = some nm → lookupOutput st.outputs nm = none))) :
    st.focused_output = none ∧
    resolve_output st "@current" = Except.error ResolveError.noFocusedOutput ∧
    ∀ scaleArgs direction,
      mainModel st scaleArgs "@current" direction =
        MainResult.exited 1 "No focused output!" := by
  have hfo : st.focused_output = none := by
    rcases h with hnone | ⟨w, hw, hfoc, hbad⟩
    · have hfw : st.focused_workspace = none := by
        unfold NiriState.focused_workspace
        rw [List.find?_eq_none]
        intro x hx
        simp [hnone x hx]
      simp [NiriState.focused_output, hfw]
    · have hfw : st.focused_workspace = some w := by
        unfold NiriState.focused_workspace
        cases hfind : st.workspaces.find? (fun w => w.is_focused) with
        | none =>
          exact absurd hfoc (by simpa using List.find?_eq_none.mp hfind w hw)
        | some w2 =>
          have hw2foc : w2.is_focused = true := by
            simpa using List.find?_some hfind
          have hw2mem : w2 ∈ st.workspaces := List.mem_of_find?_eq_some hfind
          rw [hinv w2 hw2mem w hw hw2foc hfoc]
      rcases hbad with hno | hlk
      · simp [NiriState.focused_output, hfw, hno]
      · cases ho : w.output with
        | none => simp [NiriState.focused_output, hfw, ho]
        | some nm =>
          by_cases hnm : nm = ""
          · simp [NiriState.focused_output, hfw, ho, hnm]
          · simp [NiriState.focused_output, hfw, ho, hnm, hlk nm ho]
  have hres : resolve_output st "@current" =
      Except.error ResolveError.noFocusedOutput := by
    simp [resolve_output, hfo]
  refine ⟨hfo, hres, ?_⟩
  intro scaleArgs direction
  simp [mainModel, hres]

/-- Claim C8 witness on the concrete state with no focused workspace. -/
theorem C8_no_focused_output_witness :
    ((∀ w1 ∈ stNoFocus.workspaces, ∀ w2 ∈ stNoFocus.workspaces,
        w1.is_focused = true → w2.is_focused = true → w1 = w2) ∧
      (∀ w ∈ stNoFocus.workspaces, w.is_focused = false)) ∧
    stNoFocus.focused_output = none ∧
    resolve_output stNoFocus "@current" =
      Except.error ResolveError.noFocusedOutput ∧
    mainModel stNoFocus (some [1]) "@current" "forwards" =
      MainResult.exited 1 "No focused output!" := by
  have h := C8_no_focused_output stNoFocus (by decide) (Or.inl (by decide))
  exact ⟨⟨by decide, by decide⟩, h.1, h.2.1, h.2.2 (some [1]) "forwards"⟩

/-! ### Claim C10: a missing --scale flag crashes after the query -/

/-- Claim C10: when the --scale flag never occurs, argparse leaves the
scale list as None rather than an empty list, and main, on any state whose
output resolution succeeds (so the compositor has already been queried),
raises an unhandled TypeError at the sorted(None) step instead of the
no-op outcome. -/
theorem C10_missing_scale_flag_typeerror (st : NiriState)
    (output_arg : String) (direction : String) (o : OutputEntry)
    (hres : resolve_output st output_arg = Except.ok o) :
    parseScaleFlags [] = none ∧
    mainModel st (parseScaleFlags []) output_arg direction =
      MainResult.pyError
        (PyError.typeError "NoneType object is not iterable") ∧
    mainModel st (parseScaleFlags []) output_arg direction ≠
      MainResult.noNextScaleMsg := by
  have hmain : mainModel st (parseScaleFlags []) output_arg direction =
      MainResult.pyError
        (PyError.typeError "NoneType object is not iterable") := by
    unfold mainModel
    rw [hres]
    rfl
  exact ⟨rfl, hmain, by rw [hmain]; intro hc; cases hc⟩


/-- Claim C10 witness: explicit output name resolving successfully, no
--scale flag given. -/
theorem C10_missing_scale_flag_typeerror_witness :
    resolve_output stWithOutput "eDP-1" = Except.ok outEDP ∧
    (parseScaleFlags [] = none ∧
      mainModel stWithOutput (parseScaleFlags []) "eDP-1" "forwards" =
        MainResult.pyError
          (PyError.typeError "NoneType object is not iterable") ∧
      mainModel stWithOutput (parseScaleFlags []) "eDP-1" "forwards" ≠
        MainResult.noNextScaleMsg) :=
  ⟨rfl, C10_missing_scale_flag_typeerror stWithOutput "eDP-1" "forwards"
    outEDP rfl⟩
